import Mathlib

/-!
Verification of the peer-synchronization subsystem of the memo-sticky
browser extension.  The definitions below are a shallow embedding of the
TypeScript source: `normalizeUrl` from src/shared/utils.ts, the URL-scope
filter and the inbound/outbound message handling of `P2PSyncManager`
(src/shared/p2p-sync-manager.ts), the connection bookkeeping of
`P2PClient` (src/shared/p2p-client.ts), and the remote-entity
materialization of `MemoManager` / `DrawingManager` (src/content).
Browser URL parsing is modelled by a small parser for
scheme://authority/path?query#fragment URLs; the JavaScript runtime
supplies this behaviour, so only the shape used by `normalizeUrl`
(origin and pathname extraction) is modelled.
-/

namespace MemoSticky

/-! ## URL model

A character-level model of the parts of the WHATWG URL parser that
`normalizeUrl` consumes: `origin` (scheme://authority) and `pathname`. -/

/-- Characters permitted in a URL scheme (letters, digits, plus, minus, dot). -/
def isSchemeChar (c : Char) : Bool :=
  c.isAlpha || c.isDigit || c == '+' || c == '-' || c == '.'

/-- Authority characters: anything before the first slash, question mark or hash. -/
def isAuthChar (c : Char) : Bool :=
  !(c == '/' || c == '?' || c == '#')

/-- Path characters: anything before the first question mark or hash. -/
def isPathChar (c : Char) : Bool :=
  !(c == '?' || c == '#')

/-- Find the first scheme separator "://" in a character list, returning the
text before and after it. -/
def splitSchemeSep : List Char → Option (List Char × List Char)
  | [] => none
  | c :: cs =>
    if c = ':' ∧ cs.take 2 = ['/', '/'] then
      some ([], cs.drop 2)
    else
      match splitSchemeSep cs with
      | some (s, r) => some (c :: s, r)
      | none => none

/-- Model of the URL parser used by `normalizeUrl`: accepts absolute URLs of
the shape scheme://authority[/path][?query][#fragment] and returns the pair
(origin, pathname), where origin is scheme://authority and pathname is the
path component (or "/" when the path is empty), mirroring the `origin` and
`pathname` properties of a parsed URL object. -/
def parseUrl (cs : List Char) : Option (List Char × List Char) :=
  match splitSchemeSep cs with
  | none => none
  | some (scheme, rest) =>
    if scheme = [] ∨ ¬ (scheme.all isSchemeChar = true) then none
    else if rest.takeWhile isAuthChar = [] then none
    else
      some (scheme ++ ':' :: '/' :: '/' :: rest.takeWhile isAuthChar,
        if (rest.dropWhile isAuthChar).takeWhile isPathChar = [] then ['/']
        else (rest.dropWhile isAuthChar).takeWhile isPathChar)

/-- normalizeUrl from src/shared/utils.ts: try to parse the URL; on success
return origin ++ pathname when removeQuery is set and the input unchanged
otherwise; on parse failure (the catch branch) return the input unchanged. -/
def normalizeUrl (url : String) (removeQuery : Bool) : String :=
  match parseUrl url.toList with
  | some (origin, pathname) =>
    if removeQuery then String.mk (origin ++ pathname) else url
  | none => url

/-! ### Round-trip lemmas for the URL model -/

theorem splitSchemeSep_append (s r : List Char) (h : ':' ∉ s) :
    splitSchemeSep (s ++ ':' :: '/' :: '/' :: r) = some (s, r) := by
  induction s with
  | nil => simp [splitSchemeSep]
  | cons c cs ih =>
    have hc : c ≠ ':' := fun hc => h (hc ▸ List.mem_cons_self c cs)
    have h2 : ':' ∉ cs := fun hm => h (List.mem_cons_of_mem c hm)
    have hrec := ih h2
    simp only [List.cons_append, splitSchemeSep]
    rw [if_neg (fun hand => hc hand.1)]
    rw [show splitSchemeSep (cs.append (':' :: '/' :: '/' :: r)) = some (cs, r) from hrec]

theorem takeWhile_append_cons {p : Char → Bool} (l : List Char) (c : Char) (r : List Char)
    (hl : ∀ x ∈ l, p x = true) (hc : p c = false) :
    (l ++ c :: r).takeWhile p = l := by
  induction l with
  | nil => simp [List.takeWhile_cons, hc]
  | cons a l ih =>
    have ha := hl a (List.mem_cons_self a l)
    simp [List.takeWhile_cons, ha, ih (fun x hx => hl x (List.mem_cons_of_mem a hx))]

theorem dropWhile_append_cons {p : Char → Bool} (l : List Char) (c : Char) (r : List Char)
    (hl : ∀ x ∈ l, p x = true) (hc : p c = false) :
    (l ++ c :: r).dropWhile p = c :: r := by
  induction l with
  | nil => simp [List.dropWhile_cons, hc]
  | cons a l ih =>
    have ha := hl a (List.mem_cons_self a l)
    simp [List.dropWhile_cons, ha, ih (fun x hx => hl x (List.mem_cons_of_mem a hx))]

theorem takeWhile_of_all {p : Char → Bool} (l : List Char) (hl : ∀ x ∈ l, p x = true) :
    l.takeWhile p = l := by
  induction l with
  | nil => rfl
  | cons a l ih =>
    have ha := hl a (List.mem_cons_self a l)
    simp [List.takeWhile_cons, ha, ih (fun x hx => hl x (List.mem_cons_of_mem a hx))]

theorem mem_takeWhile_pred {p : Char → Bool} {l : List Char} {x : Char}
    (hx : x ∈ l.takeWhile p) : p x = true := by
  have h := List.all_takeWhile (p := p) (l := l)
  exact (List.all_eq_true.mp h) x hx

/-- A successfully parsed origin-plus-pathname string reparses to the same
origin and pathname: the key round-trip fact behind idempotence of
normalizeUrl with removeQuery set. -/
theorem parseUrl_reparse (cs origin pathname : List Char)
    (h : parseUrl cs = some (origin, pathname)) :
    parseUrl (origin ++ pathname) = some (origin, pathname) := by
  unfold parseUrl at h
  cases hs : splitSchemeSep cs with
  | none => rw [hs] at h; exact absurd h (by simp)
  | some pr =>
    obtain ⟨scheme, rest⟩ := pr
    rw [hs] at h
    simp only at h
    by_cases hc1 : scheme = [] ∨ ¬ (scheme.all isSchemeChar = true)
    · rw [if_pos hc1] at h; exact absurd h (by simp)
    · rw [if_neg hc1] at h
      push_neg at hc1
      obtain ⟨hne, hall⟩ := hc1
      by_cases hc2 : rest.takeWhile isAuthChar = []
      · rw [if_pos hc2] at h; exact absurd h (by simp)
      · rw [if_neg hc2] at h
        have hpair := Option.some.inj h
        have hor : origin = scheme ++ ':' :: '/' :: '/' :: rest.takeWhile isAuthChar :=
          (congrArg Prod.fst hpair).symm
        have hpn :
            pathname =
              (if (rest.dropWhile isAuthChar).takeWhile isPathChar = [] then ['/']
               else (rest.dropWhile isAuthChar).takeWhile isPathChar) :=
          (congrArg Prod.snd hpair).symm
        have hnocolon : ':' ∉ scheme := by
          intro hm
          have := (List.all_eq_true.mp hall) ':' hm
          exact absurd this (by decide)
        have hauthall : ∀ x ∈ rest.takeWhile isAuthChar, isAuthChar x = true :=
          fun x hx => mem_takeWhile_pred hx
        -- the pathname always begins with a slash and has no query or hash chars
        have hpath : ∃ tl, pathname = '/' :: tl ∧ ∀ x ∈ pathname, isPathChar x = true := by
          by_cases hp0 : (rest.dropWhile isAuthChar).takeWhile isPathChar = []
          · refine ⟨[], ?_, ?_⟩
            · rw [hpn, if_pos hp0]
            · rw [hpn, if_pos hp0]
              intro x hx
              have : x = '/' := by simpa using hx
              subst this; decide
          · have hpn1 : pathname = (rest.dropWhile isAuthChar).takeWhile isPathChar := by
              rw [hpn, if_neg hp0]
            cases hdw : rest.dropWhile isAuthChar with
            | nil => exfalso; rw [hdw] at hp0; simp at hp0
            | cons d tl0 =>
              have hdfail : isAuthChar d = false := by
                have hw : rest.dropWhile isAuthChar ≠ [] := by simp [hdw]
                have h1 := List.head_dropWhile_not isAuthChar rest hw
                have h2 : (rest.dropWhile isAuthChar).head hw = d := by
                  simp only [hdw, List.head_cons]
                rw [h2] at h1
                exact h1
              have hd3 : d = '/' ∨ d = '?' ∨ d = '#' := by
                by_contra hcon
                push_neg at hcon
                obtain ⟨ha, hb, hcq⟩ := hcon
                have : isAuthChar d = true := by
                  simp [isAuthChar, ha, hb, hcq]
                rw [this] at hdfail; exact absurd hdfail (by simp)
              have hdslash : d = '/' := by
                rcases hd3 with h1 | h1 | h1
                · exact h1
                · exfalso
                  rw [hdw, h1] at hp0
                  refine hp0 ?_
                  rw [List.takeWhile_cons]
                  have hq : isPathChar '?' = false := by decide
                  rw [hq]
                  simp
                · exfalso
                  rw [hdw, h1] at hp0
                  refine hp0 ?_
                  rw [List.takeWhile_cons]
                  have hq : isPathChar '#' = false := by decide
                  rw [hq]
                  simp
              refine ⟨(tl0.takeWhile isPathChar), ?_, ?_⟩
              · rw [hpn1, hdw, hdslash, List.takeWhile_cons]
                have hps : isPathChar '/' = true := by decide
                rw [hps]
                simp
              · intro x hx
                rw [hpn1] at hx
                exact mem_takeWhile_pred hx
        obtain ⟨tl, hpc, hpall⟩ := hpath
        -- now reparse origin ++ pathname
        have hassoc :
            origin ++ pathname =
              scheme ++ ':' :: '/' :: '/' :: (rest.takeWhile isAuthChar ++ pathname) := by
          rw [hor]; simp
        rw [hassoc]
        unfold parseUrl
        rw [splitSchemeSep_append scheme _ hnocolon]
        simp only
        rw [if_neg (by push_neg; exact ⟨hne, hall⟩)]
        have htw : (rest.takeWhile isAuthChar ++ pathname).takeWhile isAuthChar =
            rest.takeWhile isAuthChar := by
          rw [hpc]
          exact takeWhile_append_cons _ _ _ hauthall (by decide)
        have hdw2 : (rest.takeWhile isAuthChar ++ pathname).dropWhile isAuthChar = pathname := by
          rw [hpc]
          exact dropWhile_append_cons _ _ _ hauthall (by decide)
        rw [if_neg (by rw [htw]; exact hc2)]
        rw [htw, hdw2]
        have hpw : pathname.takeWhile isPathChar = pathname := takeWhile_of_all _ hpall
        rw [hpw, if_neg (by rw [hpc]; simp)]
        rw [hor]

theorem normalizeUrl_false_id (u : String) : normalizeUrl u false = u := by
  unfold normalizeUrl
  cases parseUrl u.toList with
  | none => rfl
  | some pr => obtain ⟨o, p⟩ := pr; simp

theorem normalizeUrl_idem (u : String) (q : Bool) :
    normalizeUrl (normalizeUrl u q) q = normalizeUrl u q := by
  cases q with
  | false => rw [normalizeUrl_false_id, normalizeUrl_false_id]
  | true =>
    cases hp : parseUrl u.toList with
    | none =>
      have h1 : normalizeUrl u true = u := by unfold normalizeUrl; rw [hp]
      rw [h1, h1]
    | some pr =>
      obtain ⟨o, p⟩ := pr
      have h1 : normalizeUrl u true = String.mk (o ++ p) := by
        unfold normalizeUrl; rw [hp]; simp
      rw [h1]
      unfold normalizeUrl
      have htl : (String.mk (o ++ p)).toList = o ++ p := rfl
      rw [htl, parseUrl_reparse u.toList o p hp]
      simp

/-! ## Data model

Entities from src/shared/types.ts.  Presentation-only payload fields
(position, style, color, timestamps, paths) are not consulted by the sync
layer and are collapsed into a single opaque payload string; id and url are
the fields the sync layer reads. -/

/-- Settings from src/shared/types.ts (presentation defaults omitted). -/
structure Settings where
  enabled : Bool
  removeQueryParams : Bool
  sharingEnabled : Bool
  signalingServer : String
  sharedPeers : List String
deriving DecidableEq, Repr

/-- Memo from src/shared/types.ts: id, url, content plus opaque payload. -/
structure Memo where
  id : String
  url : String
  content : String
  payload : String
deriving DecidableEq, Repr

/-- Highlight from src/shared/types.ts: id, url plus opaque payload. -/
structure Highlight where
  id : String
  url : String
  payload : String
deriving DecidableEq, Repr

/-- Drawing from src/shared/types.ts: id, url plus opaque payload. -/
structure Drawing where
  id : String
  url : String
  payload : String
deriving DecidableEq, Repr

/-- SharedMemo: a Memo together with the ownerId tag. -/
structure SharedMemo where
  id : String
  url : String
  content : String
  payload : String
  ownerId : String
deriving DecidableEq, Repr

/-- SharedHighlight: a Highlight together with the ownerId tag. -/
structure SharedHighlight where
  id : String
  url : String
  payload : String
  ownerId : String
deriving DecidableEq, Repr

/-- SharedDrawing: a Drawing together with the ownerId tag. -/
structure SharedDrawing where
  id : String
  url : String
  payload : String
  ownerId : String
deriving DecidableEq, Repr

/-- The spread { ...memo, ownerId: peerId } performed by the memo handlers. -/
def stampMemoOwner (m : Memo) (peerId : String) : SharedMemo :=
  { id := m.id, url := m.url, content := m.content, payload := m.payload, ownerId := peerId }

/-- The spread { ...highlight, ownerId: peerId } performed by handleHighlightCreate. -/
def stampHighlightOwner (h : Highlight) (peerId : String) : SharedHighlight :=
  { id := h.id, url := h.url, payload := h.payload, ownerId := peerId }

/-- The spread { ...drawing, ownerId: peerId } performed by handleDrawingCreate. -/
def stampDrawingOwner (d : Drawing) (peerId : String) : SharedDrawing :=
  { id := d.id, url := d.url, payload := d.payload, ownerId := peerId }

/-- The data part of a P2PMessage (src/shared/p2p-sync-manager.ts).  The
type union there has exactly these eight kinds; in particular there is no
highlight-update and no drawing-update message. -/
inductive P2PMessageData where
  | syncInitial (url : String) (memos : List SharedMemo)
      (highlights : List SharedHighlight) (drawings : List SharedDrawing)
  | memoCreate (m : Memo)
  | memoUpdate (m : Memo)
  | memoDelete (memoId : String) (url : String)
  | highlightCreate (h : Highlight)
  | highlightDelete (highlightId : String) (url : String)
  | drawingCreate (d : Drawing)
  | drawingDelete (drawingId : String) (url : String)
deriving DecidableEq, Repr

/-- Window events dispatched by P2PSyncManager for the entity managers. -/
inductive P2PEvent where
  | initialSync (memos : List SharedMemo)
      (highlights : List SharedHighlight) (drawings : List SharedDrawing)
  | memoCreated (m : SharedMemo)
  | memoUpdated (m : SharedMemo)
  | memoDeleted (memoId : String) (url : String)
  | highlightCreated (h : SharedHighlight)
  | highlightDeleted (highlightId : String) (url : String)
  | drawingCreated (d : SharedDrawing)
  | drawingDeleted (drawingId : String) (url : String)
deriving DecidableEq, Repr

/-! ## URL-scope filter

The comparison block that appears identically inlined in handleInitialSync,
handleMemoCreate and handleMemoUpdate of P2PSyncManager. -/

/-- The urlsMatch computation of the memo and initial-sync handlers: with
settings loaded, compare one normalized form per the local
removeQueryParams flag; with settings not yet loaded, try both the
query-preserving and the query-stripped forms. -/
def urlsMatchCheck (settings : Option Settings) (msgUrl currentUrl : String) : Bool :=
  match settings with
  | some s =>
    normalizeUrl msgUrl s.removeQueryParams == normalizeUrl currentUrl s.removeQueryParams
  | none =>
    (normalizeUrl msgUrl false == normalizeUrl currentUrl false) ||
    (normalizeUrl msgUrl true == normalizeUrl currentUrl true)

/-- Written from the specification text, for comparison: one normalized form
on each side under a common removeQuery flag. -/
def specSingleFormMatch (removeQuery : Bool) (msgUrl currentUrl : String) : Bool :=
  normalizeUrl msgUrl removeQuery == normalizeUrl currentUrl removeQuery

/-- Written from the specification text, for comparison: the permissive
check that accepts when any pairing of a normalized form of the message URL
with a normalized form of the current URL matches (four pairings). -/
def specAnyPairingMatch (msgUrl currentUrl : String) : Bool :=
  (normalizeUrl msgUrl false == normalizeUrl currentUrl false) ||
  (normalizeUrl msgUrl true == normalizeUrl currentUrl true) ||
  (normalizeUrl msgUrl false == normalizeUrl currentUrl true) ||
  (normalizeUrl msgUrl true == normalizeUrl currentUrl false)

/-- Written from the specification text, for comparison: the two diagonal
pairings (both preserved, or both stripped). -/
def specDiagonalMatch (msgUrl currentUrl : String) : Bool :=
  specSingleFormMatch false msgUrl currentUrl || specSingleFormMatch true msgUrl currentUrl

/-! ## Inbound message handling (P2PSyncManager.setupDataListeners dispatch) -/

/-- handleMemoCreate: URL-scope filter, then stamp ownerId and dispatch. -/
def handleMemoCreate (settings : Option Settings) (currentUrl : String)
    (memo : Memo) (peerId : String) : List P2PEvent :=
  if urlsMatchCheck settings memo.url currentUrl then
    [P2PEvent.memoCreated (stampMemoOwner memo peerId)]
  else []

/-- handleMemoUpdate: URL-scope filter, then stamp ownerId and dispatch. -/
def handleMemoUpdate (settings : Option Settings) (currentUrl : String)
    (memo : Memo) (peerId : String) : List P2PEvent :=
  if urlsMatchCheck settings memo.url currentUrl then
    [P2PEvent.memoUpdated (stampMemoOwner memo peerId)]
  else []

/-- handleMemoDelete: dispatch unconditionally. -/
def handleMemoDelete (memoId url : String) : List P2PEvent :=
  [P2PEvent.memoDeleted memoId url]

/-- handleHighlightCreate: stamp ownerId and dispatch unconditionally. -/
def handleHighlightCreate (h : Highlight) (peerId : String) : List P2PEvent :=
  [P2PEvent.highlightCreated (stampHighlightOwner h peerId)]

/-- handleHighlightDelete: dispatch unconditionally. -/
def handleHighlightDelete (highlightId url : String) : List P2PEvent :=
  [P2PEvent.highlightDeleted highlightId url]

/-- handleDrawingCreate: stamp ownerId and dispatch unconditionally. -/
def handleDrawingCreate (d : Drawing) (peerId : String) : List P2PEvent :=
  [P2PEvent.drawingCreated (stampDrawingOwner d peerId)]

/-- handleDrawingDelete: dispatch unconditionally. -/
def handleDrawingDelete (drawingId url : String) : List P2PEvent :=
  [P2PEvent.drawingDeleted drawingId url]

/-- handleInitialSync: URL-scope filter on the carried url, then dispatch
the whole batch. -/
def handleInitialSync (settings : Option Settings) (currentUrl : String)
    (url : String) (memos : List SharedMemo) (highlights : List SharedHighlight)
    (drawings : List SharedDrawing) : List P2PEvent :=
  if urlsMatchCheck settings url currentUrl then
    [P2PEvent.initialSync memos highlights drawings]
  else []

/-- The onData dispatch of P2PSyncManager.setupDataListeners, returning the
window events dispatched for one inbound message. -/
def handleP2PMessage (settings : Option Settings) (currentUrl : String)
    (msg : P2PMessageData) (peerId : String) : List P2PEvent :=
  match msg with
  | .syncInitial url memos highlights drawings =>
    handleInitialSync settings currentUrl url memos highlights drawings
  | .memoCreate m => handleMemoCreate settings currentUrl m peerId
  | .memoUpdate m => handleMemoUpdate settings currentUrl m peerId
  | .memoDelete memoId url => handleMemoDelete memoId url
  | .highlightCreate h => handleHighlightCreate h peerId
  | .highlightDelete highlightId url => handleHighlightDelete highlightId url
  | .drawingCreate d => handleDrawingCreate d peerId
  | .drawingDelete drawingId url => handleDrawingDelete drawingId url

/-! ## Downstream materialization (MemoManager / DrawingManager)

The sharedMemos and sharedDrawings Maps are modelled as association lists
keyed by entity id, in insertion order with unique keys. -/

/-- MemoManager.createSharedMemoComponent: skip when the id already exists,
otherwise add the component. -/
def createSharedMemoComponent (store : List (String × SharedMemo)) (m : SharedMemo) :
    List (String × SharedMemo) :=
  if (store.lookup m.id).isSome then store else store ++ [(m.id, m)]

/-- MemoManager.updateSharedMemoComponent: when present, destroy and delete
the old component then recreate; when absent, create. -/
def updateSharedMemoComponent (store : List (String × SharedMemo)) (m : SharedMemo) :
    List (String × SharedMemo) :=
  match store.lookup m.id with
  | some _ => createSharedMemoComponent (store.filter (fun e => !(e.1 == m.id))) m
  | none => createSharedMemoComponent store m

/-- MemoManager.removeSharedMemoComponent: remove when present, else no-op. -/
def removeSharedMemoComponent (store : List (String × SharedMemo)) (memoId : String) :
    List (String × SharedMemo) :=
  match store.lookup memoId with
  | some _ => store.filter (fun e => !(e.1 == memoId))
  | none => store

/-- DrawingManager.createSharedDrawingComponent: skip when present. -/
def createSharedDrawingComponent (store : List (String × SharedDrawing)) (d : SharedDrawing) :
    List (String × SharedDrawing) :=
  if (store.lookup d.id).isSome then store else store ++ [(d.id, d)]

/-- DrawingManager.removeSharedDrawingComponent: remove when present, else no-op. -/
def removeSharedDrawingComponent (store : List (String × SharedDrawing)) (drawingId : String) :
    List (String × SharedDrawing) :=
  match store.lookup drawingId with
  | some _ => store.filter (fun e => !(e.1 == drawingId))
  | none => store

/-- The effect of one dispatched window event on the MemoManager shared-memo
store (setupP2PListeners listeners). -/
def applyMemoEvent (store : List (String × SharedMemo)) (e : P2PEvent) :
    List (String × SharedMemo) :=
  match e with
  | .initialSync memos _ _ => memos.foldl createSharedMemoComponent store
  | .memoCreated m => createSharedMemoComponent store m
  | .memoUpdated m => updateSharedMemoComponent store m
  | .memoDeleted memoId _ => removeSharedMemoComponent store memoId
  | _ => store

/-- The shared-memo store after all events of one inbound message. -/
def applyMemoEvents (store : List (String × SharedMemo)) (events : List P2PEvent) :
    List (String × SharedMemo) :=
  events.foldl applyMemoEvent store

/-! ## Connection tie-break and retry (MemoManager.initializeP2PSync) -/

/-- The initiation decision: the side whose own id compares lexicographically
below the remote id initiates; the other side waits for an inbound link. -/
def shouldInitiate (userId peerId : String) : Bool :=
  decide (userId < peerId)

/-- Outcome of one connectToPeer call. -/
inductive ConnectOutcome where
  | success
  | failure
deriving DecidableEq, Repr

/-- The connect-with-retry flow of initializeP2PSync for one desired peer,
as the list of (delay in ms before the attempt, outcome) pairs: one
immediate attempt and, on failure, a single retry after a fixed 5000 ms
wait. -/
def peerConnectAttempts (first retryOutcome : ConnectOutcome) :
    List (Nat × ConnectOutcome) :=
  match first with
  | .success => [(0, .success)]
  | .failure => [(0, .failure), (5000, retryOutcome)]

/-- Written from the claim text, for comparison: the n-th scheduled retry
delay of an exponential backoff with base 10000 ms capped at 60000 ms. -/
def specRetryDelay (n : Nat) : Nat :=
  min (10000 * 2 ^ (n - 1)) 60000

/-! ## P2PClient connection bookkeeping (src/shared/p2p-client.ts)

The connections Map holds a link only once the underlying channel reports
open (setupConnection installs the open handler that inserts into the Map);
connect makes a new underlying attempt whenever the Map has no entry. -/

/-- Observable P2PClient state: whether the peer object exists, the keys of
the connections Map, and the trace of underlying outbound link attempts. -/
structure ClientState where
  initialized : Bool
  connections : List String
  attempts : List String
deriving DecidableEq, Repr

namespace P2PClient

/-- P2PClient.connect: reject when not initialized; resolve immediately when
the connections Map already has the peer; otherwise open a new underlying
link attempt (the Map entry is only added later, by the open handler). -/
def connect (st : ClientState) (peerId : String) : ClientState :=
  if st.initialized = false then st
  else if peerId ∈ st.connections then st
  else { st with attempts := st.attempts ++ [peerId] }

/-- The open handler installed by setupConnection: record the link in the
connections Map. -/
def onConnOpen (st : ClientState) (peerId : String) : ClientState :=
  if peerId ∈ st.connections then st
  else { st with connections := st.connections ++ [peerId] }

/-- The close handler installed by setupConnection: drop the link. -/
def onConnClose (st : ClientState) (peerId : String) : ClientState :=
  { st with connections := st.connections.filter (fun p => !(p == peerId)) }

end P2PClient

/-! ## Initial-sync buffering (P2PSyncManager) -/

/-- P2PSyncManager state relevant to initial-sync buffering: the loaded
settings, the pendingInitialSyncPeers Set (insertion order, no duplicates)
and the trace of initial-sync sends. -/
structure SyncState where
  settings : Option Settings
  pendingInitialSyncPeers : List String
  sentInitialSyncs : List String
deriving DecidableEq, Repr

/-- The constructor state of P2PSyncManager. -/
def SyncState.init : SyncState :=
  { settings := none, pendingInitialSyncPeers := [], sentInitialSyncs := [] }

/-- P2PSyncManager.sendInitialSync: before settings load, buffer the peer id
in the Set; after, send the initial-sync message for the peer. -/
def sendInitialSync (st : SyncState) (peerId : String) : SyncState :=
  match st.settings with
  | none =>
    { st with
      pendingInitialSyncPeers :=
        if peerId ∈ st.pendingInitialSyncPeers then st.pendingInitialSyncPeers
        else st.pendingInitialSyncPeers ++ [peerId] }
  | some _ => { st with sentInitialSyncs := st.sentInitialSyncs ++ [peerId] }

/-- The onConnection callback of setupDataListeners: send (or buffer) the
initial sync for the newly connected peer. -/
def onPeerConnection (st : SyncState) (peerId : String) : SyncState :=
  sendInitialSync st peerId

/-- The settings-loaded step of P2PSyncManager.initialize: store the loaded
settings, flush every buffered peer through sendInitialSync, then clear the
Set. -/
def loadSettingsAndFlush (st : SyncState) (s : Settings) : SyncState :=
  let st1 := { st with settings := some s }
  let st2 := st1.pendingInitialSyncPeers.foldl sendInitialSync st1
  { st2 with pendingInitialSyncPeers := [] }

/-! ## Outbound mutation path (P2PSyncManager.broadcast*) -/

/-- One entry of the P2PClient connections Map, with its channel status:
isOpen mirrors conn.open, sendOk is whether conn.send succeeds (a throwing
send is caught inside P2PClient.broadcast). -/
structure Conn where
  peerId : String
  isOpen : Bool
  sendOk : Bool
deriving DecidableEq, Repr

/-- Observable effects of an outbound mutation call, in program order. -/
inductive SyncEffect where
  | saveMemo (m : Memo)
  | saveDrawing (d : Drawing)
  | send (peerId : String) (msg : P2PMessageData)
deriving DecidableEq, Repr

/-- P2PClient.broadcast: best-effort send to every open connection; a send
that throws is caught and counted, never propagated.  Returns the send
effects that reached a channel. -/
def broadcastSends (conns : List Conn) (msg : P2PMessageData) : List SyncEffect :=
  (conns.filter (fun c => c.isOpen && c.sendOk)).map (fun c => SyncEffect.send c.peerId msg)

/-- P2PSyncManager.broadcastMemoCreate: no-op before settings load; then
persist via StorageManager.saveMemo and, only after that, broadcast.  A
persistence failure (saveOk false) rethrows out of the catch with no
broadcast; none models the rejected promise. -/
def broadcastMemoCreate (settings : Option Settings) (conns : List Conn)
    (saveOk : Bool) (m : Memo) : Option (List SyncEffect) :=
  match settings with
  | none => some []
  | some _ =>
    if saveOk then
      some (SyncEffect.saveMemo m :: broadcastSends conns (P2PMessageData.memoCreate m))
    else none

/-- P2PSyncManager.broadcastMemoUpdate: identical shape with a memo-update
message. -/
def broadcastMemoUpdate (settings : Option Settings) (conns : List Conn)
    (saveOk : Bool) (m : Memo) : Option (List SyncEffect) :=
  match settings with
  | none => some []
  | some _ =>
    if saveOk then
      some (SyncEffect.saveMemo m :: broadcastSends conns (P2PMessageData.memoUpdate m))
    else none

/-- P2PSyncManager.broadcastDrawingCreate: persist via
StorageManager.saveDrawing, then broadcast a drawing-create message. -/
def broadcastDrawingCreate (settings : Option Settings) (conns : List Conn)
    (saveOk : Bool) (d : Drawing) : Option (List SyncEffect) :=
  match settings with
  | none => some []
  | some _ =>
    if saveOk then
      some (SyncEffect.saveDrawing d :: broadcastSends conns (P2PMessageData.drawingCreate d))
    else none

/-! ## Concrete fixtures used by counterexamples and witnesses -/

/-- Loaded settings with removeQueryParams disabled. -/
def testSettingsKeepQuery : Settings :=
  { enabled := true, removeQueryParams := false, sharingEnabled := true,
    signalingServer := "wss://signal.example", sharedPeers := ["memo-bbb"] }

/-- A concrete memo on page https://a.com/x. -/
def testMemo : Memo :=
  { id := "m1", url := "https://a.com/x", content := "hello", payload := "pl" }

/-- A concrete drawing on page https://a.com/x. -/
def testDrawing : Drawing :=
  { id := "d1", url := "https://a.com/x", payload := "pl" }

/-- A concrete highlight on a different page https://b.com/q. -/
def testForeignHighlight : Highlight :=
  { id := "h1", url := "https://b.com/q", payload := "pl" }

/-- A freshly initialized P2PClient with no links and no attempts. -/
def cInitState : ClientState :=
  { initialized := true, connections := [], attempts := [] }

/-- Set-semantics insertion used by the pendingInitialSyncPeers buffer:
append the id unless it is already present. -/
def insertPending (l : List String) (p : String) : List String :=
  if p ∈ l then l else l ++ [p]

/-! ## Claim theorems -/

/-- Claim C10: normalizeUrl is idempotent for every flag value, is the
identity with removeQuery false, and returns the input unchanged when URL
parsing fails. -/
theorem normalizeUrl_idempotent_spec (u : String) (q : Bool) :
    normalizeUrl (normalizeUrl u q) q = normalizeUrl u q ∧
    normalizeUrl u false = u ∧
    (parseUrl u.toList = none → normalizeUrl u q = u) := by
  refine ⟨normalizeUrl_idem u q, normalizeUrl_false_id u, fun hp => ?_⟩
  unfold normalizeUrl
  rw [hp]

/-- Witness for C10 at a concrete unparsable input. -/
theorem normalizeUrl_idempotent_spec_witness :
    parseUrl (String.toList "not a url") = none ∧ normalizeUrl "not a url" true = "not a url" :=
  ⟨by decide, (normalizeUrl_idempotent_spec "not a url" true).2.2 (by decide)⟩

/-- Claim C1 counterexample: with settings loaded and removeQueryParams
false, a message URL differing from the current URL only in the query
string is rejected by the filter, although the permissive any-pairing check
of the claim accepts it (the stripped forms agree). -/
theorem urlScopeFilter_bothForms_counterexample :
    urlsMatchCheck (some testSettingsKeepQuery) "https://a.com/x?y=1" "https://a.com/x?y=2"
        = false ∧
    specAnyPairingMatch "https://a.com/x?y=1" "https://a.com/x?y=2" = true := by
  constructor
  · decide
  · decide

/-- Claim C1 (amended): the permissive check applies only when the settings
are not yet loaded, and then only the two diagonal pairings are tried; with
settings loaded the filter compares the single normalized form selected by
the local removeQueryParams flag.  Whenever the settings-not-loaded check
accepts, the any-pairing check of the specification accepts as well. -/
theorem urlScopeFilter_amended (msgUrl currentUrl : String) :
    urlsMatchCheck none msgUrl currentUrl = specDiagonalMatch msgUrl currentUrl ∧
    (∀ s : Settings,
      urlsMatchCheck (some s) msgUrl currentUrl =
        specSingleFormMatch s.removeQueryParams msgUrl currentUrl) ∧
    (urlsMatchCheck none msgUrl currentUrl = true →
      specAnyPairingMatch msgUrl currentUrl = true) := by
  refine ⟨rfl, fun s => rfl, fun h => ?_⟩
  unfold urlsMatchCheck at h
  unfold specAnyPairingMatch
  rcases Bool.or_eq_true_iff.mp h with h1 | h1
  · rw [h1]
    simp
  · rw [h1]
    simp

/-- Witness for C1 (amended) at concrete URLs accepted without settings. -/
theorem urlScopeFilter_amended_witness :
    urlsMatchCheck none "https://a.com/x" "https://a.com/x" = true ∧
    specAnyPairingMatch "https://a.com/x" "https://a.com/x" = true :=
  ⟨by decide, (urlScopeFilter_amended "https://a.com/x" "https://a.com/x").2.2 (by decide)⟩

/-- Claim C2 counterexample: an inbound highlight-create whose URL fails the
scope filter (under every pairing) is still re-emitted with ownerId stamped;
highlight creates are not filtered. -/
theorem inboundFilter_counterexample :
    urlsMatchCheck (some testSettingsKeepQuery) testForeignHighlight.url "https://a.com/x"
        = false ∧
    specAnyPairingMatch testForeignHighlight.url "https://a.com/x" = false ∧
    handleP2PMessage (some testSettingsKeepQuery) "https://a.com/x"
        (P2PMessageData.highlightCreate testForeignHighlight) "memo-bbb" =
      [P2PEvent.highlightCreated
        { id := "h1", url := "https://b.com/q", payload := "pl", ownerId := "memo-bbb" }] := by
  refine ⟨by decide, by decide, rfl⟩

/-- Claim C2 (amended): only memo create and memo update messages pass
through the URL-scope filter before being re-emitted with ownerId = sender;
highlight-create and drawing-create messages are re-emitted with ownerId
stamped unconditionally (and no highlight or drawing update message kind
exists in the protocol). -/
theorem inboundHandling_amended (settings : Option Settings) (currentUrl peerId : String) :
    (∀ m : Memo,
      (handleP2PMessage settings currentUrl (P2PMessageData.memoCreate m) peerId =
          [P2PEvent.memoCreated (stampMemoOwner m peerId)] ∧
        urlsMatchCheck settings m.url currentUrl = true) ∨
      (handleP2PMessage settings currentUrl (P2PMessageData.memoCreate m) peerId = [] ∧
        urlsMatchCheck settings m.url currentUrl = false)) ∧
    (∀ m : Memo,
      (handleP2PMessage settings currentUrl (P2PMessageData.memoUpdate m) peerId =
          [P2PEvent.memoUpdated (stampMemoOwner m peerId)] ∧
        urlsMatchCheck settings m.url currentUrl = true) ∨
      (handleP2PMessage settings currentUrl (P2PMessageData.memoUpdate m) peerId = [] ∧
        urlsMatchCheck settings m.url currentUrl = false)) ∧
    (∀ h : Highlight,
      handleP2PMessage settings currentUrl (P2PMessageData.highlightCreate h) peerId =
        [P2PEvent.highlightCreated (stampHighlightOwner h peerId)]) ∧
    (∀ d : Drawing,
      handleP2PMessage settings currentUrl (P2PMessageData.drawingCreate d) peerId =
        [P2PEvent.drawingCreated (stampDrawingOwner d peerId)]) := by
  refine ⟨fun m => ?_, fun m => ?_, fun h => rfl, fun d => rfl⟩
  · by_cases hm : urlsMatchCheck settings m.url currentUrl = true
    · exact Or.inl ⟨by simp [handleP2PMessage, handleMemoCreate, hm], hm⟩
    · exact Or.inr ⟨by simp [handleP2PMessage, handleMemoCreate, hm],
        Bool.not_eq_true _ ▸ hm⟩
  · by_cases hm : urlsMatchCheck settings m.url currentUrl = true
    · exact Or.inl ⟨by simp [handleP2PMessage, handleMemoUpdate, hm], hm⟩
    · exact Or.inr ⟨by simp [handleP2PMessage, handleMemoUpdate, hm],
        Bool.not_eq_true _ ▸ hm⟩

/-- Claim C3 counterexample: after a failed connect the code schedules one
retry after a fixed 5000 ms, while the claimed backoff formula prescribes
10000 ms for the first retry; and there is no second retry at all. -/
theorem backoff_counterexample :
    (peerConnectAttempts ConnectOutcome.failure ConnectOutcome.failure).map Prod.fst
        = [0, 5000] ∧
    specRetryDelay 1 = 10000 ∧
    ¬ (5000 : Nat) = specRetryDelay 1 ∧
    (peerConnectAttempts ConnectOutcome.failure ConnectOutcome.failure).length = 2 := by
  refine ⟨rfl, by decide, by decide, rfl⟩

/-- Claim C3 (amended): after a failed connect to a desired peer the
coordinator waits a fixed 5000 ms and retries exactly once, whatever the
retry outcome; a successful first attempt schedules no retry.  There is no
exponential backoff schedule, no 60-second cap and no attempt counter. -/
theorem retry_amended (r : ConnectOutcome) :
    peerConnectAttempts ConnectOutcome.failure r = [(0, ConnectOutcome.failure), (5000, r)] ∧
    peerConnectAttempts ConnectOutcome.success r = [(0, ConnectOutcome.success)] ∧
    ((peerConnectAttempts ConnectOutcome.failure r).map Prod.fst).tail = [5000] := by
  exact ⟨rfl, rfl, rfl⟩

/-- Claim C4: for two distinct identities exactly one side initiates, the
one whose identity sorts lexicographically below the other, independent of
call order. -/
theorem tieBreak_deterministic (a b : String) (hne : a ≠ b) :
    (shouldInitiate a b = true ∧ shouldInitiate b a = false) ∨
    (shouldInitiate a b = false ∧ shouldInitiate b a = true) := by
  unfold shouldInitiate
  rcases lt_trichotomy a b with h | h | h
  · left
    exact ⟨decide_eq_true h, decide_eq_false (not_lt_of_gt h)⟩
  · exact absurd h hne
  · right
    exact ⟨decide_eq_false (not_lt_of_gt h), decide_eq_true h⟩

/-- Witness for C4 at the identities of the end-to-end scenario. -/
theorem tieBreak_deterministic_witness :
    ("memo-aaa" : String) ≠ "memo-bbb" ∧
    ((shouldInitiate "memo-aaa" "memo-bbb" = true ∧
        shouldInitiate "memo-bbb" "memo-aaa" = false) ∨
      (shouldInitiate "memo-aaa" "memo-bbb" = false ∧
        shouldInitiate "memo-bbb" "memo-aaa" = true)) :=
  ⟨by decide, tieBreak_deterministic "memo-aaa" "memo-bbb" (by decide)⟩

/-- Claim C5 counterexample: two connect calls in quick succession, before
the underlying link reports open, produce two underlying link attempts, not
one; the connections Map only short-circuits a link that already opened. -/
theorem connectIdempotent_counterexample :
    (P2PClient.connect (P2PClient.connect cInitState "memo-bbb") "memo-bbb").attempts
        = ["memo-bbb", "memo-bbb"] ∧
    ¬ (P2PClient.connect (P2PClient.connect cInitState "memo-bbb") "memo-bbb").attempts.length
        = 1 := by
  exact ⟨by decide, by decide⟩

/-- Claim C5 (amended): connect(remoteId) short-circuits exactly when a link
to that identity is already recorded open in the connections Map; while no
link is recorded (in particular while a first call is still pending) every
further connect call opens another underlying link attempt. -/
theorem connect_amended (st : ClientState) (p : String) :
    (p ∈ st.connections → P2PClient.connect st p = st) ∧
    (st.initialized = true → p ∉ st.connections →
      (P2PClient.connect st p).attempts = st.attempts ++ [p]) := by
  constructor
  · intro hm
    unfold P2PClient.connect
    by_cases hi : st.initialized = false
    · rw [if_pos hi]
    · rw [if_neg hi, if_pos hm]
  · intro hi hm
    unfold P2PClient.connect
    rw [if_neg (by rw [hi]; simp), if_neg hm]

/-- Witness for C5 (amended): short-circuit on an open link, fresh attempt
otherwise. -/
theorem connect_amended_witness :
    P2PClient.connect
        { initialized := true, connections := ["memo-bbb"], attempts := [] } "memo-bbb"
      = { initialized := true, connections := ["memo-bbb"], attempts := [] } ∧
    (P2PClient.connect cInitState "memo-bbb").attempts = ["memo-bbb"] :=
  ⟨(connect_amended { initialized := true, connections := ["memo-bbb"], attempts := [] }
      "memo-bbb").1 (by decide),
   (connect_amended cInitState "memo-bbb").2 (by decide) (by decide)⟩

/-! ### Buffered initial-sync lemmas -/

theorem sendInitialSync_none (st : SyncState) (p : String) (h : st.settings = none) :
    sendInitialSync st p =
      { st with pendingInitialSyncPeers := insertPending st.pendingInitialSyncPeers p } := by
  unfold sendInitialSync insertPending
  rw [h]

theorem foldl_onPeerConnection_none (opens : List String) :
    ∀ st : SyncState, st.settings = none →
      opens.foldl onPeerConnection st =
        { settings := none,
          pendingInitialSyncPeers := opens.foldl insertPending st.pendingInitialSyncPeers,
          sentInitialSyncs := st.sentInitialSyncs } := by
  induction opens with
  | nil =>
    intro st h
    obtain ⟨so, pd, sn⟩ := st
    simp only [List.foldl_nil]
    rw [show so = none from h]
  | cons o os ih =>
    intro st h
    rw [List.foldl_cons, List.foldl_cons]
    have h1 : onPeerConnection st o =
        { st with pendingInitialSyncPeers := insertPending st.pendingInitialSyncPeers o } :=
      sendInitialSync_none st o h
    rw [h1]
    exact ih _ h

theorem insertPending_nodup (l : List String) (p : String) (h : l.Nodup) :
    (insertPending l p).Nodup := by
  unfold insertPending
  by_cases hm : p ∈ l
  · rw [if_pos hm]; exact h
  · rw [if_neg hm]
    simp [List.nodup_append, h, hm]

theorem mem_insertPending (l : List String) (p x : String) :
    x ∈ insertPending l p ↔ x ∈ l ∨ x = p := by
  unfold insertPending
  by_cases hm : p ∈ l
  · rw [if_pos hm]
    constructor
    · exact Or.inl
    · rintro (h | h)
      · exact h
      · exact h ▸ hm
  · rw [if_neg hm]
    simp

theorem foldl_insertPending_nodup (opens : List String) :
    ∀ l : List String, l.Nodup → (opens.foldl insertPending l).Nodup := by
  induction opens with
  | nil => intro l h; exact h
  | cons o os ih =>
    intro l h
    rw [List.foldl_cons]
    exact ih _ (insertPending_nodup l o h)

theorem mem_foldl_insertPending (opens : List String) :
    ∀ (l : List String) (x : String), x ∈ opens.foldl insertPending l ↔ x ∈ l ∨ x ∈ opens := by
  induction opens with
  | nil => simp
  | cons o os ih =>
    intro l x
    rw [List.foldl_cons, ih, mem_insertPending]
    simp only [List.mem_cons]
    tauto

theorem foldl_sendInitialSync_some (pend : List String) :
    ∀ st : SyncState, st.settings.isSome →
      pend.foldl sendInitialSync st =
        { st with sentInitialSyncs := st.sentInitialSyncs ++ pend } := by
  induction pend with
  | nil => intro st _; obtain ⟨so, pd, sn⟩ := st; simp
  | cons p ps ih =>
    intro st h
    obtain ⟨so, pd, sn⟩ := st
    cases so with
    | none => simp at h
    | some s =>
      rw [List.foldl_cons]
      have h1 : sendInitialSync ⟨some s, pd, sn⟩ p = ⟨some s, pd, sn ++ [p]⟩ := rfl
      rw [h1, ih _ (by simp)]
      simp

theorem loadSettingsAndFlush_eq (so : Option Settings) (pd sn : List String) (s : Settings) :
    loadSettingsAndFlush ⟨so, pd, sn⟩ s = ⟨some s, [], sn ++ pd⟩ := by
  show ({ settings := (List.foldl sendInitialSync ⟨some s, pd, sn⟩ pd).settings,
          pendingInitialSyncPeers := [],
          sentInitialSyncs :=
            (List.foldl sendInitialSync ⟨some s, pd, sn⟩ pd).sentInitialSyncs } : SyncState)
      = ⟨some s, [], sn ++ pd⟩
  rw [foldl_sendInitialSync_some pd ⟨some s, pd, sn⟩ (by simp)]

/-- Claim C6: an open observation that arrives before configuration loads is
buffered deduplicated by peer id, and the flush performed when settings
become available sends the initial sync exactly once to every such peer
(never zero times), leaving the buffer empty. -/
theorem initialSyncBuffering (opens : List String) (s : Settings) (p : String) :
    ((opens.foldl onPeerConnection SyncState.init).pendingInitialSyncPeers).Nodup ∧
    (opens.foldl onPeerConnection SyncState.init).sentInitialSyncs = [] ∧
    (loadSettingsAndFlush (opens.foldl onPeerConnection SyncState.init) s).pendingInitialSyncPeers = [] ∧
    (loadSettingsAndFlush (opens.foldl onPeerConnection SyncState.init) s).sentInitialSyncs.count p
      = (if p ∈ opens then 1 else 0) := by
  have hb2 : opens.foldl onPeerConnection SyncState.init =
      { settings := none, pendingInitialSyncPeers := opens.foldl insertPending [],
        sentInitialSyncs := [] } :=
    foldl_onPeerConnection_none opens SyncState.init rfl
  have hnodup : (opens.foldl insertPending ([] : List String)).Nodup :=
    foldl_insertPending_nodup opens [] List.nodup_nil
  have hflush :
      loadSettingsAndFlush (opens.foldl onPeerConnection SyncState.init) s =
        { settings := some s, pendingInitialSyncPeers := [],
          sentInitialSyncs := opens.foldl insertPending [] } := by
    rw [hb2, loadSettingsAndFlush_eq]
    simp
  refine ⟨by rw [hb2]; exact hnodup, by rw [hb2], by rw [hflush], ?_⟩
  rw [hflush]
  have hmem : p ∈ opens.foldl insertPending ([] : List String) ↔ p ∈ opens := by
    rw [mem_foldl_insertPending]
    simp
  by_cases hp : p ∈ opens
  · rw [if_pos hp]
    exact List.count_eq_one_of_mem hnodup (hmem.mpr hp)
  · rw [if_neg hp]
    exact List.count_eq_zero_of_not_mem (fun hc => hp (hmem.mp hc))

/-! ### Outbound mutation lemmas -/

theorem broadcastSends_nil (conns : List Conn) (msg : P2PMessageData)
    (h : ∀ c ∈ conns, c.isOpen = false) : broadcastSends conns msg = [] := by
  unfold broadcastSends
  have hf : conns.filter (fun c => c.isOpen && c.sendOk) = [] := by
    rw [List.filter_eq_nil_iff]
    intro c hc
    simp [h c hc]
  rw [hf]
  rfl

theorem broadcastSends_shape (conns : List Conn) (msg : P2PMessageData) :
    ∀ e ∈ broadcastSends conns msg, ∃ q ms, e = SyncEffect.send q ms := by
  intro e he
  unfold broadcastSends at he
  obtain ⟨c, _, rfl⟩ := List.mem_map.mp he
  exact ⟨c.peerId, msg, rfl⟩

/-- Claim C7 counterexample: before settings load, broadcastMemoCreate and
broadcastDrawingCreate return early: the call resolves with an empty effect
trace, so nothing is persisted locally, refuting the unconditional
persist-first guarantee of the claim. -/
theorem outboundPersistFirst_counterexample :
    broadcastMemoCreate none [] true testMemo = some [] ∧
    broadcastDrawingCreate none [] true testDrawing = some [] :=
  ⟨rfl, rfl⟩

/-- Claim C7 (amended): once settings are loaded and persistence succeeds,
every outbound create call records the local save as its first effect and
only send effects after it; with zero open links the call succeeds with the
local save as its only effect; the call resolves for every combination of
open and failing channels, so a broadcast failure never rolls back or
blocks the persisted write.  Before settings load, however, the call
returns early and resolves with no effect at all: no persistence and no
broadcast. -/
theorem outboundPersistFirst (s : Settings) (conns : List Conn) (m : Memo) (d : Drawing) :
    (∀ eff, broadcastMemoCreate (some s) conns true m = some eff →
      eff.head? = some (SyncEffect.saveMemo m) ∧
      ∀ e ∈ eff.tail, ∃ q msg, e = SyncEffect.send q msg) ∧
    ((∀ c ∈ conns, c.isOpen = false) →
      broadcastMemoCreate (some s) conns true m = some [SyncEffect.saveMemo m]) ∧
    (broadcastMemoCreate (some s) conns true m).isSome = true ∧
    (∀ eff, broadcastDrawingCreate (some s) conns true d = some eff →
      eff.head? = some (SyncEffect.saveDrawing d) ∧
      ∀ e ∈ eff.tail, ∃ q msg, e = SyncEffect.send q msg) ∧
    ((∀ c ∈ conns, c.isOpen = false) →
      broadcastDrawingCreate (some s) conns true d = some [SyncEffect.saveDrawing d]) ∧
    (broadcastDrawingCreate (some s) conns true d).isSome = true ∧
    broadcastMemoCreate none conns true m = some [] ∧
    broadcastDrawingCreate none conns true d = some [] := by
  have hm : broadcastMemoCreate (some s) conns true m =
      some (SyncEffect.saveMemo m :: broadcastSends conns (P2PMessageData.memoCreate m)) := rfl
  have hd : broadcastDrawingCreate (some s) conns true d =
      some (SyncEffect.saveDrawing d :: broadcastSends conns (P2PMessageData.drawingCreate d)) :=
    rfl
  refine ⟨?_, ?_, by rw [hm]; rfl, ?_, ?_, by rw [hd]; rfl, rfl, rfl⟩
  · intro eff heq
    rw [hm] at heq
    obtain rfl := (Option.some.inj heq).symm
    exact ⟨rfl, fun e he => broadcastSends_shape conns _ e he⟩
  · intro hall
    rw [hm, broadcastSends_nil conns _ hall]
  · intro eff heq
    rw [hd] at heq
    obtain rfl := (Option.some.inj heq).symm
    exact ⟨rfl, fun e he => broadcastSends_shape conns _ e he⟩
  · intro hall
    rw [hd, broadcastSends_nil conns _ hall]

/-- Witness for C7: with no connections the memo is persisted and nothing
else happens. -/
theorem outboundPersistFirst_witness :
    broadcastMemoCreate (some testSettingsKeepQuery) [] true testMemo
        = some [SyncEffect.saveMemo testMemo] ∧
    broadcastDrawingCreate (some testSettingsKeepQuery) [] true testDrawing
        = some [SyncEffect.saveDrawing testDrawing] :=
  ⟨(outboundPersistFirst testSettingsKeepQuery [] testMemo testDrawing).2.1
      (fun c hc => absurd hc (List.not_mem_nil c)),
   (outboundPersistFirst testSettingsKeepQuery [] testMemo testDrawing).2.2.2.2.1
      (fun c hc => absurd hc (List.not_mem_nil c))⟩

/-- Claim C8: an inbound memo-update whose id is unknown to the shared-memo
store materializes exactly as the corresponding memo-create would have. -/
theorem updateAsCreate (settings : Option Settings) (currentUrl peerId : String) (m : Memo)
    (store : List (String × SharedMemo)) (h : store.lookup m.id = none) :
    applyMemoEvents store
        (handleP2PMessage settings currentUrl (P2PMessageData.memoUpdate m) peerId) =
      applyMemoEvents store
        (handleP2PMessage settings currentUrl (P2PMessageData.memoCreate m) peerId) := by
  by_cases hf : urlsMatchCheck settings m.url currentUrl = true
  · simp only [handleP2PMessage, handleMemoUpdate, handleMemoCreate, hf, if_true,
      applyMemoEvents, List.foldl_cons, List.foldl_nil, applyMemoEvent]
    unfold updateSharedMemoComponent
    have hid : (stampMemoOwner m peerId).id = m.id := rfl
    rw [hid, h]
  · simp [handleP2PMessage, handleMemoUpdate, handleMemoCreate, hf]

/-- Witness for C8 at a concrete unknown id on an empty store. -/
theorem updateAsCreate_witness :
    applyMemoEvents []
        (handleP2PMessage none "https://a.com/x" (P2PMessageData.memoUpdate testMemo) "memo-bbb")
      = applyMemoEvents []
        (handleP2PMessage none "https://a.com/x" (P2PMessageData.memoCreate testMemo) "memo-bbb") :=
  updateAsCreate none "https://a.com/x" "memo-bbb" testMemo [] rfl

/-- Claim C9: every inbound delete message is re-emitted as a remove-by-id
event with no URL-scope filtering, for each of the three kinds, and a delete
whose id is not in the downstream store leaves the store unchanged. -/
theorem deleteUnconditional (settings : Option Settings)
    (currentUrl peerId entityId url : String) :
    handleP2PMessage settings currentUrl (P2PMessageData.memoDelete entityId url) peerId
        = [P2PEvent.memoDeleted entityId url] ∧
    handleP2PMessage settings currentUrl (P2PMessageData.highlightDelete entityId url) peerId
        = [P2PEvent.highlightDeleted entityId url] ∧
    handleP2PMessage settings currentUrl (P2PMessageData.drawingDelete entityId url) peerId
        = [P2PEvent.drawingDeleted entityId url] ∧
    (∀ store : List (String × SharedMemo), store.lookup entityId = none →
      applyMemoEvents store
        (handleP2PMessage settings currentUrl (P2PMessageData.memoDelete entityId url) peerId)
        = store) ∧
    (∀ store : List (String × SharedDrawing), store.lookup entityId = none →
      removeSharedDrawingComponent store entityId = store) := by
  refine ⟨rfl, rfl, rfl, fun store h => ?_, fun store h => ?_⟩
  · simp only [handleP2PMessage, handleMemoDelete, applyMemoEvents, List.foldl_cons,
      List.foldl_nil, applyMemoEvent]
    unfold removeSharedMemoComponent
    rw [h]
  · unfold removeSharedDrawingComponent
    rw [h]

/-- Witness for C9 on empty downstream stores. -/
theorem deleteUnconditional_witness :
    applyMemoEvents []
        (handleP2PMessage none "https://a.com/x" (P2PMessageData.memoDelete "mX" "u") "memo-bbb")
      = [] ∧
    removeSharedDrawingComponent [] "dX" = [] :=
  ⟨(deleteUnconditional none "https://a.com/x" "memo-bbb" "mX" "u").2.2.2.1 [] rfl,
   (deleteUnconditional none "https://a.com/x" "memo-bbb" "dX" "u").2.2.2.2 [] rfl⟩

end MemoSticky
